import Mathlib

/-!
# Verification of the MissionControl King bridge (`orchestrator/bridge/king.go`)

Shallow embedding of the managed-terminal-process orchestration engine:
screen parsing (`parseQuestion`, `isQuestionUI`, readiness), the lifecycle
state machine (`Start`, `Stop`, `AnswerQuestion`), the file-based completion
protocol, and usage accounting (`emitTokenUsage`).

Screen text is modelled as `List Char` (Go strings are UTF-8; all the
source's substring operations respect character boundaries, so the
character-level model is faithful).
-/

namespace MissionControl

/-- Go regexp `\s` character class: `[\t\n\f\r ]` (RE2 Perl class). -/
def goRegexSpace (c : Char) : Bool :=
  c = ' ' || c = '\t' || c = '\n' || c = '\x0c' || c = '\r'

/-- `unicode.IsSpace` (used by Go `strings.TrimSpace`): ASCII whitespace
plus the Unicode space separators. -/
def goUnicodeSpace (c : Char) : Bool :=
  c = '\t' || c = '\n' || c = '\x0b' || c = '\x0c' || c = '\r' || c = ' ' ||
  c = '\x85' || c = '\xa0' || c = '\u1680' ||
  ('\u2000' ≤ c && c ≤ '\u200a') ||
  c = '\u2028' || c = '\u2029' || c = '\u202f' || c = '\u205f' || c = '\u3000'

/-- Go `strings.TrimSpace`. -/
def trimGo (l : List Char) : List Char :=
  ((l.dropWhile goUnicodeSpace).reverse.dropWhile goUnicodeSpace).reverse

/-- `hasPrefixL needle hay` is Go `strings.HasPrefix(hay, needle)`. -/
def hasPrefixL : List Char → List Char → Bool
  | [], _ => true
  | _ :: _, [] => false
  | a :: as, b :: bs => a = b && hasPrefixL as bs

/-- `containsL hay needle` is Go `strings.Contains(hay, needle)`. -/
def containsL (hay needle : List Char) : Bool :=
  match hay with
  | [] => needle.isEmpty
  | _ :: t => hasPrefixL needle hay || containsL t needle

/-- Go `strings.HasSuffix(hay, needle)`. -/
def hasSuffixL (needle hay : List Char) : Bool :=
  hasPrefixL needle.reverse hay.reverse

/-- UTF-8 byte length of a character list (Go `len(s)` on a string). -/
def utf8Len (l : List Char) : Nat :=
  l.foldl (fun a c => a + c.utf8Size) 0

/-- Go `strings.Split(s, "\n")`. -/
def splitNl : List Char → List (List Char)
  | [] => [[]]
  | c :: rest =>
    match splitNl rest with
    | [] => [[c]]
    | h :: t => if c = '\n' then [] :: h :: t else (c :: h) :: t

/-- The highlight-marker glyph `❯` as a one-character needle. -/
def hlMark : List Char := ['❯']

/-- The navigation-hint phrase that terminates the option scan. -/
def navHint : List Char := "Enter to select".data

/-- `☐` (unchecked task checkbox). -/
def cbEmpty : List Char := ['☐']

/-- `☑` (checked task checkbox). -/
def cbChecked : List Char := ['☑']

/-- Go `strings.Index(optionText, "\t")` cleanup from `parseQuestion`:
if a tab occurs at positive index, keep only the text before it, trimmed.
(The text is already trimmed, so a present tab is never at index 0 unless
the text is empty, in which case `Index` returns -1 anyway.) -/
def tabClean (t : List Char) : List Char :=
  match t.findIdx? (· = '\t') with
  | some i => if 0 < i then trimGo (t.take i) else t
  | none => t

/-- The option-line regex of `parseQuestion`:
`^\s*(❯)?\s*(\d+)\.\s*(.+)$`.  Returns `(marker present, cleaned text)`
when the line matches, where the text is `strings.TrimSpace` of
capture group 3 followed by the tab cleanup (exactly the Go code path).
The regex is anchored and deterministic: leading `\s*` is maximal, the
optional `❯` is taken when present, digits are maximal, and `(.+)$`
requires at least one character after the dot. -/
def optionLineParse (line : List Char) : Option (Bool × List Char) :=
  let s1 := line.dropWhile goRegexSpace
  let (marked, s2) :=
    match s1 with
    | '❯' :: rest => (true, rest)
    | _ => (false, s1)
  let s3 := s2.dropWhile goRegexSpace
  let digits := s3.takeWhile Char.isDigit
  let s4 := s3.dropWhile Char.isDigit
  if digits.isEmpty then none
  else
    match s4 with
    | '.' :: rest => if rest.isEmpty then none else some (marked, tabClean (trimGo rest))
    | _ => none

/-- `isQuestionUI` from king.go: a navigation hint together with at least
one checkbox/option marker glyph. -/
def isQuestionUI (pane : List Char) : Bool :=
  (containsL pane "Enter to select".data || containsL pane "↑/↓ to navigate".data) &&
  (containsL pane "☐".data || containsL pane "○".data ||
   containsL pane "❯ 1.".data || containsL pane "❯ 2.".data)

/-- Parsed selection prompt (Go `KingQuestion`). -/
structure KingQuestion where
  question : List Char
  options : List (List Char)
  selected : Nat
deriving Repr, DecidableEq

/-- Candidate test for the question-text heuristic: a lookahead line whose
trimmed form is non-empty, that does not match the option regex, and whose
trimmed form does not start with `❯`. -/
def qCand (n : List Char) : Bool :=
  ¬(trimGo n).isEmpty && (optionLineParse n).isNone && ¬hasPrefixL hlMark (trimGo n)

/-- One line's effect on the question-text heuristic: on a line containing
`☐` or `☑`, scan the next four lines for the first candidate and take its
trimmed text; otherwise leave the state unchanged. -/
def pqStepQ (l : List Char) (rest : List (List Char)) (fq : Bool) (q : List Char) :
    Bool × List Char :=
  if containsL l cbEmpty || containsL l cbChecked then
    match (rest.take 4).find? qCand with
    | some n => (true, trimGo n)
    | none => (fq, q)
  else (fq, q)

/-- One line's effect on the option accumulator: append the matched text,
and when the highlight marker is present set the selected index to the
position of the line just appended. -/
def pqStepOpt (l : List Char) (opts : List (List Char)) (sel : Nat) :
    List (List Char) × Nat :=
  match optionLineParse l with
  | none => (opts, sel)
  | some (marked, t) => (opts ++ [t], if marked then opts.length else sel)

/-- Does this line stop the scan (Go: trimmed line contains
"Enter to select")? -/
def navLine (l : List Char) : Bool := containsL (trimGo l) navHint

/-- Accumulator of `parseQuestion`'s main loop. -/
structure PQAcc where
  options : List (List Char)
  selected : Nat
  foundQuestion : Bool
  question : List Char
deriving Repr, DecidableEq

/-- The main loop of `parseQuestion`: per line, run the question heuristic,
then the option match, then stop if the line is the navigation hint. -/
def pqLoop : List (List Char) → PQAcc → PQAcc
  | [], acc => acc
  | l :: rest, acc =>
    let fqq := pqStepQ l rest acc.foundQuestion acc.question
    let os := pqStepOpt l acc.options acc.selected
    let acc' : PQAcc := ⟨os.1, os.2, fqq.1, fqq.2⟩
    if navLine l then acc' else pqLoop rest acc'

/-- Fallback question test: trimmed line ends in `?` and its UTF-8 byte
length exceeds 10 (Go `len`). -/
def fallbackQ (l : List Char) : Bool :=
  hasSuffixL ['?'] (trimGo l) && 10 < utf8Len (trimGo l)

/-- `parseQuestion` from king.go: split the pane into lines, run the main
loop, reject when no options were collected, otherwise recover question
text (heuristic result, else first long line ending in `?`, else empty). -/
def parseQuestion (pane : List Char) : Option KingQuestion :=
  let lines := splitNl pane
  let acc := pqLoop lines ⟨[], 0, false, []⟩
  if acc.options.isEmpty then none
  else
    let q :=
      if acc.foundQuestion then acc.question
      else
        match lines.find? fallbackQ with
        | some l => trimGo l
        | none => acc.question
    some ⟨q, acc.options, acc.selected⟩

/-! ## Lifecycle state machine (`King` in king.go) -/

/-- Go `KingStatus`. -/
inductive KingStatus where
  | stopped
  | starting
  | running
  | error
deriving Repr, DecidableEq

/-- Outbound events of the King bridge (`emitEvent` call sites), with the
claim-relevant payload fields. -/
inductive KEvent where
  | king_started
  | agent_spawned
  | king_stopped
  | agent_stopped
  | king_user_message (content : List Char)
  | king_error (msg : String)
  | king_message (content : List Char)
  | king_answer (idx : Int) (text : List Char)
  | token_usage (inputTokens outputTokens : Nat)
  | tokens_updated (tokens : Nat) (cost : ℚ)
deriving Repr, DecidableEq

/-- The mutable fields of the Go `King` struct that the claims concern.
`stopChanClosed` models whether `stopChan` has been closed;
`sessionAlive` models the existence of the external tmux session.
`totalCost` is Go `float64`; it is modelled as an exact rational, which is
faithful for the claims proved here (they only compare totals for
equality under identical arithmetic). -/
structure KingState where
  status : KingStatus
  lastPane : List Char
  totalTokens : Nat
  totalCost : ℚ
  stopChanClosed : Bool
  sessionAlive : Bool
deriving Repr, DecidableEq

/-- Per-snapshot readiness test from `waitForPrompt`:
`strings.Contains(pane, "❯") || strings.Contains(pane, ">")`. -/
def promptReady (pane : List Char) : Bool :=
  containsL pane ['❯'] || containsL pane ['>']

/-- `waitForPrompt`'s polling loop.  The wall-clock deadline is modelled by
a fuel bound on the number of polls; `caps i` is the result of the `i`-th
`capturePane` call (`none` = capture error, which the source skips and
retries). -/
def waitForPromptAux (caps : Nat → Option (List Char)) : Nat → Nat → Except String Unit
  | 0, _ => .error "timeout waiting for Claude prompt"
  | fuel + 1, i =>
    match caps i with
    | none => waitForPromptAux caps fuel (i + 1)
    | some pane =>
      if promptReady pane then .ok () else waitForPromptAux caps fuel (i + 1)

/-- `waitForPrompt` starting from the first poll. -/
def waitForPrompt (caps : Nat → Option (List Char)) (fuel : Nat) : Except String Unit :=
  waitForPromptAux caps fuel 0

/-- Outcomes of the external calls `Start` makes, in program order:
does `.mission/CLAUDE.md` exist, does `tmux new-session` succeed, does the
`send-keys` launching claude succeed, the `capturePane` results seen by
the readiness poll (with its fuel bound), and the pane captured after
readiness. -/
structure StartEnv where
  claudeMdExists : Bool
  tmuxCreateOk : Bool
  sendClaudeOk : Bool
  polls : Nat → Option (List Char)
  pollBudget : Nat
  initialPane : List Char

/-- `King.Start` from king.go.  The directory/conversation-log
initialization between the `CLAUDE.md` check and the session setup only
logs warnings on failure and never changes control flow, so it has no
observable effect in this model.  Error strings follow the source (with
the source's inner quotes omitted). -/
def Start (s : KingState) (env : StartEnv) :
    Except String Unit × KingState × List KEvent :=
  if s.status = .running then
    (.error "King is already running", s, [])
  else if !env.claudeMdExists then
    (.error ".mission/CLAUDE.md not found - run mc init first",
      { s with status := .error }, [])
  else
    -- status := starting; any pre-existing same-named session is killed
    let s1 : KingState := { s with status := .starting, sessionAlive := false }
    if !env.tmuxCreateOk then
      (.error "failed to create tmux session", { s1 with status := .error }, [])
    else
      let s2 : KingState := { s1 with sessionAlive := true }
      if !env.sendClaudeOk then
        (.error "failed to start Claude",
          { s2 with status := .error, sessionAlive := false }, [])
      else
        match waitForPrompt env.polls env.pollBudget with
        | .error e =>
          (.error ("Claude failed to start: " ++ e),
            { s2 with status := .error, sessionAlive := false }, [])
        | .ok _ =>
          (.ok (),
            { s2 with
                status := .running, lastPane := env.initialPane,
                totalTokens := 0, totalCost := 0, stopChanClosed := false },
            [.king_started, .agent_spawned])

/-- `King.Stop` from king.go: reject unless running; close `stopChan`,
send Ctrl-C, kill the session, clear `lastPane`, emit the two events. -/
def Stop (s : KingState) : Except String Unit × KingState × List KEvent :=
  if s.status ≠ .running then
    (.error "King is not running", s, [])
  else
    (.ok (),
      { s with
          status := .stopped, stopChanClosed := true,
          sessionAlive := false, lastPane := [] },
      [.king_stopped, .agent_stopped])

/-- Keystroke tokens sent through `tmux send-keys`. -/
inductive Key where
  | down
  | up
  | enter
  | escape
  | lit (text : List Char)
deriving Repr, DecidableEq

/-- `King.AnswerQuestion` from king.go.  `paneCap` is the result of the
`capturePane` call.  Returns the call's result, the keystrokes sent to the
session, and the emitted events. -/
def AnswerQuestion (s : KingState) (paneCap : Except String (List Char))
    (optionIndex : Int) : Except String Unit × List Key × List KEvent :=
  if s.status ≠ .running then
    (.error "King is not running", [], [])
  else
    match paneCap with
    | .error e => (.error ("failed to capture pane: " ++ e), [], [])
    | .ok pane =>
      if !isQuestionUI pane then
        (.error "no question UI detected", [], [])
      else
        match parseQuestion pane with
        | none => (.error "failed to parse question", [], [])
        | some question =>
          if optionIndex < 0 ∨ (question.options.length : Int) ≤ optionIndex then
            (.error ("option index " ++ toString optionIndex ++
              " out of range (0-" ++ toString ((question.options.length : Int) - 1) ++ ")"),
              [], [])
          else
            let diff : Int := optionIndex - (question.selected : Int)
            let moves : List Key :=
              if 0 < diff then List.replicate diff.toNat .down
              else if diff < 0 then List.replicate (-diff).toNat .up
              else []
            (.ok (), moves ++ [.enter],
              [.king_answer optionIndex (question.options.getD optionIndex.toNat [])])

/-- `King.SendMessage` from king.go: reject unless running; emit the user
message event, send the literal text then Escape then Enter.  The
asynchronous completion wait it spawns is `waitForResponseEvents` below. -/
def SendMessage (s : KingState) (message : List Char) :
    Except String Unit × List Key × List KEvent :=
  if s.status ≠ .running then
    (.error "King is not running", [], [])
  else
    (.ok (), [.lit message, .escape, .enter], [.king_user_message message])

/-! ## File-based completion protocol

The `FileProtocol` type (`WaitForConversationResponse`,
`ErrProtocolTimeout`) is referenced by king.go but its source file is not
part of the repository snapshot; it is modelled from the spec below. -/

/-- Errors of the completion protocol.  `timeout` models the sentinel
value `ErrProtocolTimeout`, distinct by construction from every other
error. -/
inductive ProtocolError where
  | timeout
  | other (msg : String)
deriving Repr, DecidableEq

/-- Completion-protocol state: the byte offset into the conversation log
recorded after the previous successful wait (modelled as a character
offset, which is equivalent for offset bookkeeping). -/
structure FileProtocol where
  offset : Nat
deriving Repr, DecidableEq

/-- The fixed sentinel line appended after each full response. -/
def sentinelEnd : List Char := "---END---".data

/-- Index of the first occurrence of `needle` in a character list. -/
def findSub (needle : List Char) : List Char → Option Nat
  | [] => if hasPrefixL needle [] then some 0 else none
  | c :: t =>
    if hasPrefixL needle (c :: t) then some 0
    else (findSub needle t).map (· + 1)

/-- Modelled from the spec: `FileProtocol.WaitForConversationResponse`,
whose source file is not in the repository snapshot.  Per spec §4.3: watch
the log from the stored offset; on a new sentinel occurrence return
everything between the offset and the sentinel (excluding the sentinel)
and advance the offset past it; if no sentinel appears before the
deadline, return the timeout error and leave the offset unchanged.
`logAtDeadline` is the log content as observed by the deadline. -/
def WaitForConversationResponse (fp : FileProtocol) (logAtDeadline : List Char) :
    Except ProtocolError (List Char) × FileProtocol :=
  let rest := logAtDeadline.drop fp.offset
  match findSub sentinelEnd rest with
  | none => (.error .timeout, fp)
  | some i => (.ok (rest.take i), ⟨fp.offset + i + sentinelEnd.length⟩)

/-! ## Usage accounting and the completion-wait continuation -/

/-- `King.emitTokenUsage` from king.go.  `countTokens` is the external
tokenizer collaborator `core.CountTokens`.  If counting the response's
tokens fails the function returns immediately (only logging), leaving the
totals unchanged and emitting nothing.  Rates are the source's
$0.003/1K input and $0.015/1K output, as exact rationals. -/
def emitTokenUsage (s : KingState) (countTokens : List Char → Except String Nat)
    (userMessage response : List Char) : KingState × List KEvent :=
  match countTokens response with
  | .error _ => (s, [])
  | .ok outputTokens =>
    let inputTokens :=
      if userMessage ≠ [] then
        match countTokens userMessage with
        | .ok c => c
        | .error _ => 0
      else 0
    let totalNewTokens := inputTokens + outputTokens
    let newCost : ℚ := (inputTokens : ℚ) * 3 / 1000000 + (outputTokens : ℚ) * 15 / 1000000
    let s' : KingState := { s with totalTokens := s.totalTokens + totalNewTokens,
                                   totalCost := s.totalCost + newCost }
    (s', [.token_usage inputTokens outputTokens,
          .tokens_updated s'.totalTokens s'.totalCost])

/-- The continuation of `King.waitForResponse` once the protocol wait has
resolved: on `ErrProtocolTimeout` emit the timeout error event, on any
other error emit that error event, on success emit the message event and
run `emitTokenUsage`.  Note that this code path reads neither `status`
nor `stopChan`: its behaviour is the same whatever `Stop` has done in the
meantime, exactly as in the source, whose wait context is
`context.WithTimeout(context.Background(), 5*time.Minute)` with no link
to `stopChan`. -/
def waitForResponseEvents (s : KingState)
    (countTokens : List Char → Except String Nat) (userMessage : List Char)
    (protoResult : Except ProtocolError (List Char)) : KingState × List KEvent :=
  match protoResult with
  | .error .timeout => (s, [.king_error "timeout waiting for response"])
  | .error (.other m) => (s, [.king_error m])
  | .ok response =>
    let r := emitTokenUsage s countTokens userMessage response
    (r.1, .king_message response :: r.2)

/-! ## Specification-side helpers

These are not transcriptions of source functions; they are the vocabulary
in which the claims about `parseQuestion` and `waitForPrompt` are stated.
Their agreement with the source loop (`pqLoop`) is proved below. -/

/-- The prefix of a list up to and including the first element satisfying
`p` (the whole list if none does). -/
def takeThrough (p : α → Bool) : List α → List α
  | [] => []
  | a :: rest => if p a then [a] else a :: takeThrough p rest

/-- The lines `parseQuestion` scans: everything up to and including the
first navigation-hint line. -/
def scanPrefix (lines : List (List Char)) : List (List Char) :=
  takeThrough navLine lines

/-- The option-pattern matches among the scanned lines, in document
order: for each matching line, whether it carries the highlight marker
and its cleaned option text. -/
def optionMatches (lines : List (List Char)) : List (Bool × List Char) :=
  (scanPrefix lines).filterMap optionLineParse

/-- The highlighted index resulting from folding the option matches in
order: `len` is the number of options already collected, and a marked
match at position `len` overwrites the current selection. -/
def selFold : List (Bool × List Char) → Nat → Nat → Nat
  | [], _, sel => sel
  | (b, _) :: ps, len, sel => selFold ps (len + 1) (if b then len else sel)

/-! ## Concrete fixtures used by witnesses -/

/-- A well-formed selection-prompt snapshot: three option lines, marker on
the first. -/
def paneFix1 : List Char :=
  ("☐ Task\nDo you want to proceed?\n❯ 1. Yes\n  2. No\n  3. Maybe\n  Enter to select").data

/-- A selection-prompt snapshot with the marker on the second option. -/
def paneFix2 : List Char :=
  ("☐ Task\nWhich one do you want?\n  1. Alpha\n❯ 2. Beta\n  3. Gamma\n  ↑/↓ to navigate · Enter to select").data

/-- A snapshot with no selection prompt at all. -/
def paneFix3 : List Char := ("$ echo hello\nhello").data

/-- A running-state fixture. -/
def kRunningFix : KingState :=
  ⟨.running, [], 0, 0, false, true⟩

/-- An error-state fixture (as left behind by a failed `Start`). -/
def kErrorFix : KingState :=
  ⟨.error, [], 0, 0, false, false⟩

/-- An environment in which every external call of `Start` succeeds and
the first captured pane already shows the prompt glyph. -/
def envGood : StartEnv :=
  ⟨true, true, true, fun _ => some ['❯'], 1, ['❯']⟩

/-- An environment in which `.mission/CLAUDE.md` is missing. -/
def envNoMd : StartEnv :=
  ⟨false, true, true, fun _ => some ['❯'], 1, ['❯']⟩

/-- An environment in which the prompt glyph never appears, so the
readiness poll runs out its deadline. -/
def envNoPrompt : StartEnv :=
  ⟨true, true, true, fun _ => some ['x'], 2, []⟩

/-- A tokenizer collaborator that always fails (for the usage-accounting
claims). -/
def ctFailFix : List Char → Except String Nat :=
  fun _ => .error "tokenizer unavailable"

/-- A tokenizer collaborator that always fails (for the cancellation
claims). -/
def ctFailFix7 : List Char → Except String Nat :=
  fun _ => .error "tokenizer unavailable"

/-- A running-state fixture with nonzero usage totals and a live session,
representing the state while a completion wait is in flight. -/
def kRunning7 : KingState :=
  ⟨.running, ['x'], 5, 1, false, true⟩

/-- The parse of `paneFix2`. -/
def qFix2 : KingQuestion :=
  ⟨"Which one do you want?".data,
   ["Alpha".data, "Beta".data, "Gamma".data], 1⟩

/-! ## Theorems: the main parse loop computes the option fold -/

/-- One step of `pqLoop` on the accumulator, named for the proofs. -/
def pqAccStep (l : List Char) (rest : List (List Char)) (acc : PQAcc) : PQAcc :=
  ⟨(pqStepOpt l acc.options acc.selected).1, (pqStepOpt l acc.options acc.selected).2,
   (pqStepQ l rest acc.foundQuestion acc.question).1,
   (pqStepQ l rest acc.foundQuestion acc.question).2⟩

theorem pqLoop_cons (l : List Char) (rest : List (List Char)) (acc : PQAcc) :
    pqLoop (l :: rest) acc =
      (if navLine l then pqAccStep l rest acc else pqLoop rest (pqAccStep l rest acc)) := by
  rfl

/-- The options and selection computed by `pqLoop` are exactly the fold of
the option-pattern matches in the scanned prefix, in document order. -/
theorem pqLoop_spec (lines : List (List Char)) : ∀ acc : PQAcc,
    (pqLoop lines acc).options = acc.options ++ (optionMatches lines).map Prod.snd ∧
    (pqLoop lines acc).selected = selFold (optionMatches lines) acc.options.length acc.selected := by
  induction lines with
  | nil =>
    intro acc
    simp [pqLoop, optionMatches, scanPrefix, takeThrough, selFold]
  | cons l rest ih =>
    intro acc
    rw [pqLoop_cons]
    by_cases hn : navLine l
    · rw [if_pos hn]
      cases hop : optionLineParse l with
      | none =>
        simp [optionMatches, scanPrefix, takeThrough, hn, hop, pqAccStep, pqStepOpt, selFold]
      | some mt =>
        obtain ⟨m, t⟩ := mt
        constructor
        · simp [optionMatches, scanPrefix, takeThrough, hn, hop, pqAccStep, pqStepOpt]
        · simp [optionMatches, scanPrefix, takeThrough, hn, hop, pqAccStep, pqStepOpt, selFold]
    · rw [if_neg hn]
      obtain ⟨ho, hs⟩ := ih (pqAccStep l rest acc)
      cases hop : optionLineParse l with
      | none =>
        have ha : (pqAccStep l rest acc).options = acc.options := by
          simp [pqAccStep, pqStepOpt, hop]
        have hb : (pqAccStep l rest acc).selected = acc.selected := by
          simp [pqAccStep, pqStepOpt, hop]
        have hOM : optionMatches (l :: rest) = optionMatches rest := by
          simp [optionMatches, scanPrefix, takeThrough, hn, hop]
        exact ⟨by rw [ho, ha, hOM], by rw [hs, ha, hb, hOM]⟩
      | some mt =>
        obtain ⟨m, t⟩ := mt
        have ha : (pqAccStep l rest acc).options = acc.options ++ [t] := by
          simp [pqAccStep, pqStepOpt, hop]
        have hb : (pqAccStep l rest acc).selected =
            (if m then acc.options.length else acc.selected) := by
          simp [pqAccStep, pqStepOpt, hop]
        have hOM : optionMatches (l :: rest) = (m, t) :: optionMatches rest := by
          simp [optionMatches, scanPrefix, takeThrough, hn, hop]
        constructor
        · rw [ho, ha, hOM]; simp
        · rw [hs, ha, hb, hOM]
          simp [selFold]

/-- Folding with no marked entry leaves the selection unchanged. -/
theorem selFold_of_none (ps : List (Bool × List Char)) : ∀ len sel,
    (∀ x ∈ ps, x.1 = false) → selFold ps len sel = sel := by
  induction ps with
  | nil => intro len sel _; rfl
  | cons p ps ih =>
    obtain ⟨b, t⟩ := p
    intro len sel h
    have hb : b = false := h (b, t) (List.mem_cons_self _ _)
    subst hb
    simp only [selFold, Bool.false_eq_true, if_false]
    exact ih _ _ (fun x hx => h x (List.mem_cons_of_mem _ hx))

/-- The resulting selection is below the total number of options, or zero
(the default when no marker was seen). -/
theorem selFold_lt (ps : List (Bool × List Char)) : ∀ len sel,
    (sel < len ∨ sel = 0) →
    (selFold ps len sel < len + ps.length ∨ selFold ps len sel = 0) := by
  induction ps with
  | nil =>
    intro len sel h
    simp only [selFold, List.length_nil]
    rcases h with h1 | h2
    · left; omega
    · right; exact h2
  | cons p ps ih =>
    obtain ⟨b, t⟩ := p
    intro len sel h
    simp only [selFold, List.length_cons]
    have h' : (if b then len else sel) < len + 1 ∨ (if b then len else sel) = 0 := by
      cases b
      · show sel < len + 1 ∨ sel = 0
        rcases h with h1 | h2
        · exact Or.inl (by omega)
        · exact Or.inr h2
      · show len < len + 1 ∨ len = 0
        exact Or.inl (Nat.lt_succ_self len)
    rcases ih (len + 1) _ h' with h1 | h2
    · left; omega
    · right; exact h2

/-- With exactly one marked entry, at position `k`, the fold returns
`len + k`. -/
theorem selFold_unique (ps : List (Bool × List Char)) : ∀ len sel k,
    k < ps.length →
    (∀ i (h : i < ps.length), ((ps[i]).1 = true ↔ i = k)) →
    selFold ps len sel = len + k := by
  induction ps with
  | nil =>
    intro len sel k hk _
    exact absurd hk (Nat.not_lt_zero k)
  | cons p ps ih =>
    obtain ⟨b, t⟩ := p
    intro len sel k hk huniq
    cases k with
    | zero =>
      have hb : b = true := by
        have := (huniq 0 (by simp)).mpr rfl
        simpa using this
      subst hb
      simp only [selFold, if_true]
      have hnone : ∀ x ∈ ps, x.1 = false := by
        intro x hx
        obtain ⟨i, hi, hxi⟩ := List.mem_iff_getElem.mp hx
        have := huniq (i + 1) (by simpa using Nat.succ_lt_succ hi)
        simp only [List.getElem_cons_succ] at this
        rw [hxi] at this
        simp at this
        exact this
      rw [selFold_of_none ps _ _ hnone]
      omega
    | succ k' =>
      have hb : b = false := by
        by_contra hb'
        have hb2 : b = true := by revert hb'; cases b <;> simp
        have := (huniq 0 (by simp)).mp (by simpa using hb2)
        omega
      subst hb
      simp only [selFold, Bool.false_eq_true, if_false]
      have hk' : k' < ps.length := by simpa using Nat.lt_of_succ_lt_succ hk
      have huniq' : ∀ i (h : i < ps.length), ((ps[i]).1 = true ↔ i = k') := by
        intro i hi
        have := huniq (i + 1) (by simpa using Nat.succ_lt_succ hi)
        simpa using this
      rw [ih (len + 1) sel k' hk' huniq']
      omega

/-- **C2.** For every screen snapshot, `parseQuestion` returns either no
prompt (`none`) or a prompt whose option list is non-empty and whose
`selected` index is a valid index into the options (`selected` is a `Nat`,
so `0 ≤ selected` holds by type); in particular a snapshot with zero
option lines among the scanned lines never yields a prompt. -/
theorem parseQuestion_sound (pane : List Char) :
    (∀ q, parseQuestion pane = some q →
      q.options ≠ [] ∧ q.selected < q.options.length) ∧
    (optionMatches (splitNl pane) = [] → parseQuestion pane = none) := by
  obtain ⟨ho, hs⟩ := pqLoop_spec (splitNl pane) ⟨[], 0, false, []⟩
  simp only [List.nil_append] at ho
  replace hs : (pqLoop (splitNl pane) ⟨[], 0, false, []⟩).selected =
      selFold (optionMatches (splitNl pane)) 0 0 := hs
  constructor
  · intro q hq
    simp only [parseQuestion] at hq
    split at hq
    · exact absurd hq (by simp)
    · rename_i he
      rw [Option.some.injEq] at hq
      subst hq
      constructor
      · show (pqLoop (splitNl pane) ⟨[], 0, false, []⟩).options ≠ []
        intro hnil
        rw [hnil] at he
        simp at he
      · show (pqLoop (splitNl pane) ⟨[], 0, false, []⟩).selected <
          (pqLoop (splitNl pane) ⟨[], 0, false, []⟩).options.length
        have hne : optionMatches (splitNl pane) ≠ [] := by
          intro h0
          rw [ho, h0] at he
          simp at he
        rw [ho, hs]
        rcases selFold_lt (optionMatches (splitNl pane)) 0 0 (Or.inr rfl) with h1 | h2
        · simpa using h1
        · rw [h2]
          simpa using List.length_pos.mpr hne
  · intro hOM
    simp only [parseQuestion]
    split
    · rfl
    · rename_i he
      exact absurd (by rw [ho, hOM]; rfl) he

/-- **C1.** For every snapshot whose scanned lines (up to the
navigation-hint line) contain exactly `N` option-pattern matches, with the
single highlight marker on the `k`-th match (0-indexed), `parseQuestion`
returns a prompt with exactly those `N` option texts in document order and
`selected = k`. -/
theorem parseQuestion_doc_order (pane : List Char) (k : Nat)
    (hk : k < (optionMatches (splitNl pane)).length)
    (huniq : ∀ i (h : i < (optionMatches (splitNl pane)).length),
      (((optionMatches (splitNl pane))[i]).1 = true ↔ i = k)) :
    ∃ q, parseQuestion pane = some q ∧
      q.options = (optionMatches (splitNl pane)).map Prod.snd ∧
      q.options.length = (optionMatches (splitNl pane)).length ∧
      q.selected = k := by
  obtain ⟨ho, hs⟩ := pqLoop_spec (splitNl pane) ⟨[], 0, false, []⟩
  simp only [List.nil_append] at ho
  replace hs : (pqLoop (splitNl pane) ⟨[], 0, false, []⟩).selected =
      selFold (optionMatches (splitNl pane)) 0 0 := hs
  have hne : ¬(pqLoop (splitNl pane) ⟨[], 0, false, []⟩).options.isEmpty = true := by
    rw [ho]
    have h0 : optionMatches (splitNl pane) ≠ [] := by
      intro h0
      rw [h0] at hk
      simp at hk
    simpa [List.isEmpty_iff] using h0
  simp only [parseQuestion]
  rw [if_neg hne]
  refine ⟨_, rfl, ?_, ?_, ?_⟩
  · exact ho
  · show (pqLoop (splitNl pane) ⟨[], 0, false, []⟩).options.length = _
    rw [ho]
    simp
  · show (pqLoop (splitNl pane) ⟨[], 0, false, []⟩).selected = k
    rw [hs]
    simpa using selFold_unique (optionMatches (splitNl pane)) 0 0 k hk huniq

/-- Witness for C1: `paneFix1` has three option matches with the marker on
match 0, and parsing returns those three options with `selected = 0`. -/
theorem parseQuestion_doc_order_witness :
    (0 < (optionMatches (splitNl paneFix1)).length) ∧
    (∃ q, parseQuestion paneFix1 = some q ∧
      q.options = (optionMatches (splitNl paneFix1)).map Prod.snd ∧
      q.options.length = (optionMatches (splitNl paneFix1)).length ∧
      q.selected = 0) :=
  ⟨by decide, parseQuestion_doc_order paneFix1 0 (by decide) (by decide)⟩

/-- Witness for C2: a parsed fixture satisfies the invariant, and a
fixture with no option lines yields no prompt. -/
theorem parseQuestion_sound_witness :
    (parseQuestion paneFix2 = some qFix2 ∧
      (qFix2.options ≠ [] ∧ qFix2.selected < qFix2.options.length)) ∧
    (optionMatches (splitNl paneFix3) = [] ∧ parseQuestion paneFix3 = none) :=
  ⟨⟨by decide, (parseQuestion_sound paneFix2).1 qFix2 (by decide)⟩,
   ⟨by decide, (parseQuestion_sound paneFix3).2 (by decide)⟩⟩

/-! ## Substring characterization (for the readiness claim) -/

theorem hasPrefixL_iff (n : List Char) : ∀ h : List Char,
    hasPrefixL n h = true ↔ ∃ t, h = n ++ t := by
  induction n with
  | nil => intro h; simp [hasPrefixL]
  | cons a as ih =>
    intro h
    cases h with
    | nil =>
      simp [hasPrefixL]
    | cons b bs =>
      simp only [hasPrefixL, Bool.and_eq_true, decide_eq_true_eq, ih, List.cons_append,
        List.cons.injEq]
      constructor
      · rintro ⟨hab, t, ht⟩
        exact ⟨t, hab.symm, ht⟩
      · rintro ⟨t, hab, ht⟩
        exact ⟨hab.symm, t, ht⟩

theorem containsL_iff (hay needle : List Char) :
    containsL hay needle = true ↔ ∃ pre post, hay = pre ++ needle ++ post := by
  induction hay with
  | nil =>
    simp only [containsL, List.isEmpty_iff]
    constructor
    · intro h
      exact ⟨[], [], by simp [h]⟩
    · rintro ⟨pre, post, h⟩
      rcases List.append_eq_nil.mp (List.append_eq_nil.mp h.symm).1 with ⟨-, h2⟩
      exact h2
  | cons c t ih =>
    simp only [containsL, Bool.or_eq_true, hasPrefixL_iff, ih]
    constructor
    · rintro (⟨tl, htl⟩ | ⟨pre, post, hpp⟩)
      · exact ⟨[], tl, by simp [htl]⟩
      · exact ⟨c :: pre, post, by simp [hpp]⟩
    · rintro ⟨pre, post, hp⟩
      cases pre with
      | nil =>
        exact Or.inl ⟨post, by simpa using hp⟩
      | cons p ps =>
        rw [List.cons_append, List.cons_append] at hp
        injection hp with h1 h2
        exact Or.inr ⟨ps, post, h2⟩

/-! ## Readiness polling -/

theorem waitForPromptAux_ok (caps : Nat → Option (List Char)) : ∀ fuel start : Nat,
    (∃ j, start ≤ j ∧ j < start + fuel ∧ ∃ p, caps j = some p ∧ promptReady p = true) →
    waitForPromptAux caps fuel start = .ok () := by
  intro fuel
  induction fuel with
  | zero =>
    rintro start ⟨j, h1, h2, -⟩
    omega
  | succ n ih =>
    rintro start ⟨j, hj1, hj2, p, hp, hr⟩
    cases hc : caps start with
    | none =>
      simp only [waitForPromptAux, hc]
      apply ih (start + 1)
      refine ⟨j, ?_, by omega, p, hp, hr⟩
      rcases Nat.eq_or_lt_of_le hj1 with rfl | h
      · rw [hc] at hp
        exact absurd hp (by simp)
      · omega
    | some p0 =>
      simp only [waitForPromptAux, hc]
      by_cases hr0 : promptReady p0 = true
      · rw [if_pos hr0]
      · rw [if_neg hr0]
        apply ih (start + 1)
        refine ⟨j, ?_, by omega, p, hp, hr⟩
        rcases Nat.eq_or_lt_of_le hj1 with rfl | h
        · rw [hc] at hp
          injection hp with hp
          subst hp
          exact absurd hr hr0
        · omega

theorem waitForPromptAux_timeout (caps : Nat → Option (List Char)) : ∀ fuel start : Nat,
    (∀ j, start ≤ j → j < start + fuel → ∀ p, caps j = some p → promptReady p = false) →
    waitForPromptAux caps fuel start = .error "timeout waiting for Claude prompt" := by
  intro fuel
  induction fuel with
  | zero => intro start _; rfl
  | succ n ih =>
    intro start h
    cases hc : caps start with
    | none =>
      simp only [waitForPromptAux, hc]
      exact ih (start + 1) (fun j hj1 hj2 p hp => h j (by omega) (by omega) p hp)
    | some p0 =>
      have hr : promptReady p0 = false := h start (le_refl _) (by omega) p0 hc
      simp only [waitForPromptAux, hc]
      rw [if_neg (by simp [hr])]
      exact ih (start + 1) (fun j hj1 hj2 p hp => h j (by omega) (by omega) p hp)

/-- **C9.** The per-snapshot readiness check reports ready exactly when a
known prompt glyph (`❯` or `>`) occurs anywhere in the snapshot text; the
startup poll succeeds when some poll within the deadline captures a ready
snapshot, and runs to the timeout error when no captured snapshot ever
contains a glyph. -/
theorem waitForPrompt_spec :
    (∀ pane : List Char, promptReady pane = true ↔
      ∃ g pre post, (g = ['❯'] ∨ g = ['>']) ∧ pane = pre ++ g ++ post) ∧
    (∀ caps fuel, (∃ i, i < fuel ∧ ∃ p, caps i = some p ∧ promptReady p = true) →
      waitForPrompt caps fuel = .ok ()) ∧
    (∀ caps fuel, (∀ i, i < fuel → ∀ p, caps i = some p → promptReady p = false) →
      waitForPrompt caps fuel = .error "timeout waiting for Claude prompt") := by
  refine ⟨?_, ?_, ?_⟩
  · intro pane
    simp only [promptReady, Bool.or_eq_true, containsL_iff]
    constructor
    · rintro (⟨pre, post, rfl⟩ | ⟨pre, post, rfl⟩)
      · exact ⟨['❯'], pre, post, Or.inl rfl, rfl⟩
      · exact ⟨['>'], pre, post, Or.inr rfl, rfl⟩
    · rintro ⟨g, pre, post, (rfl | rfl), rfl⟩
      · exact Or.inl ⟨pre, post, rfl⟩
      · exact Or.inr ⟨pre, post, rfl⟩
  · rintro caps fuel ⟨i, hi, p, hp, hr⟩
    exact waitForPromptAux_ok caps fuel 0 ⟨i, Nat.zero_le i, by omega, p, hp, hr⟩
  · intro caps fuel h
    exact waitForPromptAux_timeout caps fuel 0 (fun j _ hj p hp => h j (by omega) p hp)

/-- Witness for C9: a pane with the glyph is ready and makes the poll
succeed; a glyph-free capture stream polls to the timeout error. -/
theorem waitForPrompt_spec_witness :
    promptReady "mc ❯ ".data = true ∧
    promptReady ['x'] = false ∧
    waitForPrompt (fun _ => some ['❯']) 1 = .ok () ∧
    waitForPrompt (fun _ => some ['x']) 2 = .error "timeout waiting for Claude prompt" :=
  ⟨by decide, by decide,
   waitForPrompt_spec.2.1 (fun _ => some ['❯']) 1 ⟨0, by omega, ['❯'], rfl, by decide⟩,
   waitForPrompt_spec.2.2 (fun _ => some ['x']) 2
     (fun i hi p hp => by
       have hp' : (['x'] : List Char) = p := by simpa using hp
       rw [← hp']
       decide)⟩

/-! ## Completion protocol -/

/-- **C3.** If no sentinel occurs after the stored offset by the deadline,
the wait returns the timeout error (distinct by construction from every
other protocol error) and leaves the offset unchanged; a subsequent call,
with the state returned by the failed call, on the log after the sentinel
has been appended, returns that exchange's text (everything between the
offset and the sentinel) successfully. -/
theorem waitForConversation_timeout (fp : FileProtocol) (log1 suffix : List Char) (i : Nat)
    (hnone : findSub sentinelEnd (log1.drop fp.offset) = none)
    (hsome : findSub sentinelEnd ((log1 ++ suffix).drop fp.offset) = some i) :
    WaitForConversationResponse fp log1 = (.error .timeout, fp) ∧
    (∀ m, (ProtocolError.timeout : ProtocolError) ≠ .other m) ∧
    WaitForConversationResponse (WaitForConversationResponse fp log1).2 (log1 ++ suffix)
      = (.ok (((log1 ++ suffix).drop fp.offset).take i),
         ⟨fp.offset + i + sentinelEnd.length⟩) := by
  have h1 : WaitForConversationResponse fp log1 = (.error .timeout, fp) := by
    simp [WaitForConversationResponse, hnone]
  refine ⟨h1, fun m h => ProtocolError.noConfusion h, ?_⟩
  rw [h1]
  simp [WaitForConversationResponse, hsome]

/-- Witness for C3: an exchange whose sentinel arrives only after the
first deadline is recovered whole by the second call. -/
theorem waitForConversation_timeout_witness :
    (findSub sentinelEnd (("hi there".data).drop (0 : Nat)) = none ∧
     findSub sentinelEnd (("hi there".data ++ "\x0a---END---\x0a".data).drop (0 : Nat)) = some 9) ∧
    WaitForConversationResponse ⟨0⟩ "hi there".data = (.error .timeout, ⟨0⟩) ∧
    WaitForConversationResponse (WaitForConversationResponse ⟨0⟩ "hi there".data).2
        ("hi there".data ++ "\x0a---END---\x0a".data)
      = (.ok ((("hi there".data ++ "\x0a---END---\x0a".data).drop (0 : Nat)).take 9),
         ⟨0 + 9 + sentinelEnd.length⟩) :=
  ⟨⟨by decide, by decide⟩,
   (waitForConversation_timeout ⟨0⟩ "hi there".data "\x0a---END---\x0a".data 9
     (by decide) (by decide)).1,
   (waitForConversation_timeout ⟨0⟩ "hi there".data "\x0a---END---\x0a".data 9
     (by decide) (by decide)).2.2⟩

/-! ## Lifecycle: Start, Stop, AnswerQuestion -/

/-- **C4.** A `Start` with the configuration artifact missing returns the
descriptive error and leaves status `error`; a `Start` whose readiness
poll times out returns the descriptive error, leaves status `error` and
tears the session down; and `Start` from the `error` status is allowed:
it passes the already-running guard and, with a healthy environment,
reaches `running`. -/
theorem Start_failure_modes (s : KingState) (env : StartEnv) (hs : s.status ≠ .running) :
    (env.claudeMdExists = false →
      Start s env = (.error ".mission/CLAUDE.md not found - run mc init first",
        { s with status := .error }, [])) ∧
    (env.claudeMdExists = true → env.tmuxCreateOk = true → env.sendClaudeOk = true →
      waitForPrompt env.polls env.pollBudget = .error "timeout waiting for Claude prompt" →
      (Start s env).1 = .error "Claude failed to start: timeout waiting for Claude prompt" ∧
      (Start s env).2.1.status = .error ∧ (Start s env).2.1.sessionAlive = false) ∧
    (s.status = .error → env.claudeMdExists = true → env.tmuxCreateOk = true →
      env.sendClaudeOk = true → waitForPrompt env.polls env.pollBudget = .ok () →
      (Start s env).1 = .ok () ∧ (Start s env).2.1.status = .running) := by
  refine ⟨?_, ?_, ?_⟩
  · intro hmd
    simp [Start, hs, hmd]
  · intro hmd htm hsend hwp
    simp [Start, hs, hmd, htm, hsend, hwp]
  · intro herr hmd htm hsend hwp
    simp [Start, hs, hmd, htm, hsend, hwp]

/-- Witness for C4: missing configuration, readiness timeout, and restart
from `error`, each at concrete inputs. -/
theorem Start_failure_modes_witness :
    (Start kErrorFix envNoMd = (.error ".mission/CLAUDE.md not found - run mc init first",
      { kErrorFix with status := .error }, [])) ∧
    ((Start kErrorFix envNoPrompt).1
        = .error "Claude failed to start: timeout waiting for Claude prompt" ∧
      (Start kErrorFix envNoPrompt).2.1.status = .error ∧
      (Start kErrorFix envNoPrompt).2.1.sessionAlive = false) ∧
    ((Start kErrorFix envGood).1 = .ok () ∧ (Start kErrorFix envGood).2.1.status = .running) :=
  ⟨(Start_failure_modes kErrorFix envNoMd (by decide)).1 rfl,
   (Start_failure_modes kErrorFix envNoPrompt (by decide)).2.1 rfl rfl rfl rfl,
   (Start_failure_modes kErrorFix envGood (by decide)).2.2 rfl rfl rfl rfl rfl⟩

/-- **C8.** A successful `Start` leaves status `running`, and a second
`Start` without an intervening `Stop` returns the precondition error and
leaves the state (in particular the `running` status) unchanged. -/
theorem Start_twice_rejected (s : KingState) (env env2 : StartEnv)
    (h : (Start s env).1 = .ok ()) :
    (Start s env).2.1.status = .running ∧
    Start (Start s env).2.1 env2 =
      (.error "King is already running", (Start s env).2.1, []) := by
  have hrun : (Start s env).2.1.status = .running := by
    by_cases h1 : s.status = .running
    · simp [Start, h1] at h
    · by_cases h2 : env.claudeMdExists
      · by_cases h3 : env.tmuxCreateOk
        · by_cases h4 : env.sendClaudeOk
          · cases hwp : waitForPrompt env.polls env.pollBudget with
            | error e => simp [Start, h1, h2, h3, h4, hwp] at h
            | ok u => simp [Start, h1, h2, h3, h4, hwp]
          · simp [Start, h1, h2, h3, h4] at h
        · simp [Start, h1, h2, h3] at h
      · simp [Start, h1, h2] at h
  refine ⟨hrun, ?_⟩
  generalize hX : (Start s env).2.1 = X at hrun ⊢
  simp [Start, hrun]

/-- Witness for C8: a concrete successful start followed by a rejected
second start. -/
theorem Start_twice_rejected_witness :
    (Start kErrorFix envGood).1 = .ok () ∧
    (Start kErrorFix envGood).2.1.status = .running ∧
    Start (Start kErrorFix envGood).2.1 envGood =
      (.error "King is already running", (Start kErrorFix envGood).2.1, []) :=
  ⟨rfl, (Start_twice_rejected kErrorFix envGood envGood rfl).1,
   (Start_twice_rejected kErrorFix envGood envGood rfl).2⟩

/-- **C5.** `AnswerQuestion` returns an error and sends zero keystrokes
when no selection prompt is detected on the current screen (either the
question-UI gate fails or the parse fails), and likewise when the index is
negative or at least the number of parsed options. -/
theorem AnswerQuestion_rejects (s : KingState) (pane : List Char) (optionIndex : Int)
    (hs : s.status = .running) :
    ((isQuestionUI pane = false ∨ parseQuestion pane = none) →
      (∃ e, (AnswerQuestion s (.ok pane) optionIndex).1 = .error e) ∧
      (AnswerQuestion s (.ok pane) optionIndex).2.1 = []) ∧
    (∀ q, isQuestionUI pane = true → parseQuestion pane = some q →
      (optionIndex < 0 ∨ (q.options.length : Int) ≤ optionIndex) →
      (∃ e, (AnswerQuestion s (.ok pane) optionIndex).1 = .error e) ∧
      (AnswerQuestion s (.ok pane) optionIndex).2.1 = []) := by
  constructor
  · rintro (hui | hpq)
    · simp [AnswerQuestion, hs, hui]
    · by_cases hui : isQuestionUI pane
      · simp [AnswerQuestion, hs, hui, hpq]
      · simp [AnswerQuestion, hs, hui]
  · intro q hui hpq hrange
    simp only [AnswerQuestion, hs]
    rw [if_neg (by simp)]
    simp only [hui, Bool.not_true, Bool.false_eq_true, if_false]
    rw [hpq]
    simp only [if_pos hrange]
    exact ⟨⟨_, rfl⟩, trivial⟩

/-- Witness for C5: an out-of-range index on a concrete prompt, at the
list length, is rejected with no keystrokes; a prompt-free pane is
rejected with no keystrokes. -/
theorem AnswerQuestion_rejects_witness :
    ((∃ e, (AnswerQuestion kRunningFix (.ok paneFix2) 3).1 = .error e) ∧
      (AnswerQuestion kRunningFix (.ok paneFix2) 3).2.1 = []) ∧
    ((∃ e, (AnswerQuestion kRunningFix (.ok paneFix3) 0).1 = .error e) ∧
      (AnswerQuestion kRunningFix (.ok paneFix3) 0).2.1 = []) :=
  ⟨(AnswerQuestion_rejects kRunningFix paneFix2 3 (by decide)).2 qFix2
      (by decide) (by decide) (by decide),
   (AnswerQuestion_rejects kRunningFix paneFix3 0 (by decide)).1 (Or.inl (by decide))⟩

/-- **C6.** When `AnswerQuestion` succeeds with the parsed prompt
highlighted at `c = q.selected`, it sends exactly `|optionIndex - c|`
directional keystrokes — `Down` when the target is below, `Up` when above,
none when equal — followed by a single `Enter`. -/
theorem AnswerQuestion_moves (s : KingState) (pane : List Char) (optionIndex : Int)
    (q : KingQuestion) (hs : s.status = .running) (hui : isQuestionUI pane = true)
    (hpq : parseQuestion pane = some q) (h0 : 0 ≤ optionIndex)
    (hlt : optionIndex < q.options.length) :
    (AnswerQuestion s (.ok pane) optionIndex).1 = .ok () ∧
    (AnswerQuestion s (.ok pane) optionIndex).2.1 =
      (if (q.selected : Int) < optionIndex
        then List.replicate (optionIndex - q.selected).toNat Key.down
        else List.replicate ((q.selected : Int) - optionIndex).toNat Key.up) ++ [Key.enter] ∧
    (AnswerQuestion s (.ok pane) optionIndex).2.1.length
      = (optionIndex - (q.selected : Int)).natAbs + 1 := by
  have hrange : ¬(optionIndex < 0 ∨ (q.options.length : Int) ≤ optionIndex) := by omega
  simp only [AnswerQuestion, hs]
  rw [if_neg (by simp)]
  simp only [hui, Bool.not_true, Bool.false_eq_true, if_false]
  rw [hpq]
  simp only [if_neg hrange]
  refine ⟨trivial, ?_, ?_⟩
  · rcases lt_trichotomy ((q.selected : Int)) optionIndex with h | h | h
    · rw [if_pos (by omega : (0 : Int) < optionIndex - (q.selected : Int)), if_pos h]
    · rw [if_neg (by omega : ¬(0 : Int) < optionIndex - (q.selected : Int)),
        if_neg (by omega : ¬optionIndex - (q.selected : Int) < 0), if_neg (by omega)]
      have : ((q.selected : Int) - optionIndex).toNat = 0 := by omega
      simp [this]
    · rw [if_neg (by omega : ¬(0 : Int) < optionIndex - (q.selected : Int)),
        if_pos (by omega : optionIndex - (q.selected : Int) < 0), if_neg (by omega)]
      have : -(optionIndex - (q.selected : Int)) = (q.selected : Int) - optionIndex := by ring
      rw [this]
  · rcases lt_trichotomy ((q.selected : Int)) optionIndex with h | h | h
    · rw [if_pos (by omega : (0 : Int) < optionIndex - (q.selected : Int))]
      simp only [List.length_append, List.length_replicate, List.length_singleton]
      omega
    · rw [if_neg (by omega : ¬(0 : Int) < optionIndex - (q.selected : Int)),
        if_neg (by omega : ¬optionIndex - (q.selected : Int) < 0)]
      simp only [List.nil_append, List.length_singleton]
      omega
    · rw [if_neg (by omega : ¬(0 : Int) < optionIndex - (q.selected : Int)),
        if_pos (by omega : optionIndex - (q.selected : Int) < 0)]
      simp only [List.length_append, List.length_replicate, List.length_singleton]
      omega

/-- Witness for C6: answering option 2 on a prompt highlighted at 1 sends
one `Down` then `Enter`. -/
theorem AnswerQuestion_moves_witness :
    (AnswerQuestion kRunningFix (.ok paneFix2) 2).1 = .ok () ∧
    (AnswerQuestion kRunningFix (.ok paneFix2) 2).2.1 =
      (if ((qFix2.selected : Int) < 2)
        then List.replicate ((2 - qFix2.selected : Int)).toNat Key.down
        else List.replicate ((qFix2.selected : Int) - 2).toNat Key.up) ++ [Key.enter] ∧
    (AnswerQuestion kRunningFix (.ok paneFix2) 2).2.1.length
      = ((2 : Int) - (qFix2.selected : Int)).natAbs + 1 :=
  AnswerQuestion_moves kRunningFix paneFix2 2 qFix2 (by decide) (by decide) (by decide)
    (by omega) (by decide)

/-! ## Usage accounting and cancellation -/

/-- **C10.** If counting the tokens of the resolved response fails, the
exchange's usage accounting is skipped entirely: the totals are unchanged
and no `token_usage` or `tokens_updated` event is emitted, while the
`king_message` event carrying the response was already emitted by the
wait continuation. -/
theorem emitTokenUsage_skip (s : KingState) (ct : List Char → Except String Nat)
    (um response : List Char) (e : String) (h : ct response = .error e) :
    emitTokenUsage s ct um response = (s, []) ∧
    waitForResponseEvents s ct um (.ok response) = (s, [.king_message response]) := by
  have h1 : emitTokenUsage s ct um response = (s, []) := by
    simp [emitTokenUsage, h]
  exact ⟨h1, by simp [waitForResponseEvents, h1]⟩

/-- Witness for C10: with a failing tokenizer, the state and event list
are exactly as claimed at concrete inputs. -/
theorem emitTokenUsage_skip_witness :
    ctFailFix "hi".data = .error "tokenizer unavailable" ∧
    emitTokenUsage kRunningFix ctFailFix "hello".data "hi".data = (kRunningFix, []) ∧
    waitForResponseEvents kRunningFix ctFailFix "hello".data (.ok "hi".data)
      = (kRunningFix, [.king_message "hi".data]) :=
  ⟨rfl,
   (emitTokenUsage_skip kRunningFix ctFailFix "hello".data "hi".data
     "tokenizer unavailable" rfl).1,
   (emitTokenUsage_skip kRunningFix ctFailFix "hello".data "hi".data
     "tokenizer unavailable" rfl).2⟩

/-- Counterexample to C7: `Stop` succeeds and tears the session down, yet
the still-in-flight completion wait, when it resolves, emits the
`king_message` event for that exchange — because the wait's context is
only deadline-bound (`context.WithTimeout(context.Background(), ...)`)
and nothing in the wait path reads `stopChan` or the status. -/
theorem stop_does_not_cancel_wait_cex :
    (Stop kRunning7).1 = .ok () ∧
    (Stop kRunning7).2.1.status = .stopped ∧
    (Stop kRunning7).2.1.sessionAlive = false ∧
    (waitForResponseEvents (Stop kRunning7).2.1 ctFailFix7 "msg".data (.ok "hi".data)).2
      = [.king_message "hi".data] :=
  ⟨rfl, rfl, rfl, rfl⟩

/-- **C7 (amended).** `Stop()` does not cancel an in-flight completion
wait: the wait is scoped only to its own deadline, and its resolution
behaviour — including which events it emits — is independent of the
status, the stop signal, and the session's existence, so a wait that
resolves after `Stop()` still emits the message or error event for its
exchange. -/
theorem waitForResponse_ignores_stop (s : KingState) (st : KingStatus) (b a : Bool)
    (ct : List Char → Except String Nat) (um : List Char)
    (r : Except ProtocolError (List Char)) :
    (waitForResponseEvents { s with status := st, stopChanClosed := b, sessionAlive := a }
        ct um r).2
      = (waitForResponseEvents s ct um r).2 := by
  cases r with
  | error pe => cases pe <;> rfl
  | ok response =>
    simp only [waitForResponseEvents, emitTokenUsage]
    cases hct : ct response with
    | error e => simp [hct]
    | ok n => simp [hct]

end MissionControl
